import Mathlib

/-!
Shallow embedding of the bcash two-player wagered game protocol
(src/chess.cpp, src/poker.cpp, src/gamechannel.cpp) and proofs of the
spec claims about it.  Machine integers are modelled as Nat/Int with
explicit wrapping where it matters; the external collaborator
interfaces (hash, sign/verify, transaction intake; spec section 6) are
abstracted as function parameters since their sources (uint256.h,
key.h, script.h, main.h) are not part of this snapshot.
-/

namespace Bcash

namespace Chess

/-- Piece type bits: p & 7 (src/chess.h PieceType). -/
def PieceTypeOf (p : Nat) : Nat := p &&& 7

/-- Piece color bit: p & 8 (src/chess.h PieceColor). -/
def PieceColorOf (p : Nat) : Nat := p &&& 8

/-- IsWhite: nonempty piece with color bit clear (src/chess.h). -/
def IsWhitePiece (p : Nat) : Bool := p ≠ 0 ∧ p &&& 8 = 0

/-- Board square read: board[i] with a1=0 .. h8=63 (src/chess.h). -/
def getSq (bd : List Nat) (i : Nat) : Nat := bd.getD i 0

/-- FileOf(sq) = sq % 8 (src/chess.h). -/
def fileOf (sq : Nat) : Nat := sq % 8

/-- RankOf(sq) = sq / 8 (src/chess.h). -/
def rankOf (sq : Nat) : Nat := sq / 8

/-- MakeSquare(file, rank) = rank*8 + file (src/chess.h). -/
def mkSq (file rank : Nat) : Nat := rank * 8 + file

/-- Full chess position (src/chess.h CChessBoard fields). -/
structure CChessBoard where
  board : List Nat
  fWhiteToMove : Bool
  fCastleWK : Bool
  fCastleWQ : Bool
  fCastleBK : Bool
  fCastleBQ : Bool
  nEnPassantSquare : Int
  nHalfMoveClock : Nat
  nFullMoveNumber : Nat
deriving DecidableEq

/-- SetInitialPosition: the standard starting position (src/chess.cpp). -/
def chessInit : CChessBoard where
  board :=
    [4, 2, 3, 5, 6, 3, 2, 4,
     1, 1, 1, 1, 1, 1, 1, 1,
     0, 0, 0, 0, 0, 0, 0, 0,
     0, 0, 0, 0, 0, 0, 0, 0,
     0, 0, 0, 0, 0, 0, 0, 0,
     0, 0, 0, 0, 0, 0, 0, 0,
     9, 9, 9, 9, 9, 9, 9, 9,
     12, 10, 11, 13, 14, 11, 10, 12]
  fWhiteToMove := true
  fCastleWK := true
  fCastleWQ := true
  fCastleBK := true
  fCastleBQ := true
  nEnPassantSquare := -1
  nHalfMoveClock := 0
  nFullMoveNumber := 1

/-- FindKing: first square holding the given side's king (src/chess.cpp);
the C version returns -1 when absent, modelled as none. -/
def FindKing (bd : List Nat) (white : Bool) : Option Nat :=
  (List.range 64).find? (fun i => getSq bd i = ((if white then 0 else 8) ||| 6))

/-- One sliding-attack ray walk (the while loops of IsSquareAttacked,
src/chess.cpp); fuel 8 bounds the at-most-7 steps across the board. -/
def slideAtt (bd : List Nat) (color : Nat) (tys : List Nat)
    (f r df dr : Int) : Nat → Bool
  | 0 => false
  | fuel + 1 =>
    if f < 0 ∨ f > 7 ∨ r < 0 ∨ r > 7 then false
    else
      let p := getSq bd (mkSq f.toNat r.toNat)
      if p ≠ 0 then
        decide (PieceColorOf p = color ∧ PieceTypeOf p ∈ tys)
      else slideAtt bd color tys (f + df) (r + dr) df dr fuel

/-- IsSquareAttacked (src/chess.cpp): knight, pawn, king and slider
attacks against square sq by the given side. -/
def IsSquareAttacked (b : CChessBoard) (sq : Nat) (byWhite : Bool) : Bool :=
  let color : Nat := if byWhite then 0 else 8
  let bd := b.board
  let knight :=
    ([-17, -15, -10, -6, 6, 10, 15, 17] : List Int).any (fun off =>
      let fr := (sq : Int) + off
      if fr < 0 ∨ fr > 63 then false
      else
        let df := ((fileOf fr.toNat : Int) - (fileOf sq : Int)).natAbs
        let dr := ((rankOf fr.toNat : Int) - (rankOf sq : Int)).natAbs
        decide (((df = 1 ∧ dr = 2) ∨ (df = 2 ∧ dr = 1)) ∧
          getSq bd fr.toNat = (color ||| 2)))
  let pawn :=
    if byWhite then
      decide (rankOf sq > 0 ∧
        ((fileOf sq > 0 ∧ getSq bd (mkSq (fileOf sq - 1) (rankOf sq - 1)) = 1) ∨
         (fileOf sq < 7 ∧ getSq bd (mkSq (fileOf sq + 1) (rankOf sq - 1)) = 1)))
    else
      decide (rankOf sq < 7 ∧
        ((fileOf sq > 0 ∧ getSq bd (mkSq (fileOf sq - 1) (rankOf sq + 1)) = 9) ∨
         (fileOf sq < 7 ∧ getSq bd (mkSq (fileOf sq + 1) (rankOf sq + 1)) = 9)))
  let king :=
    ([-1, 0, 1] : List Int).any (fun dr =>
      ([-1, 0, 1] : List Int).any (fun df =>
        if dr = 0 ∧ df = 0 then false
        else
          let r := (rankOf sq : Int) + dr
          let f := (fileOf sq : Int) + df
          if r < 0 ∨ r > 7 ∨ f < 0 ∨ f > 7 then false
          else decide (getSq bd (mkSq f.toNat r.toNat) = (color ||| 6))))
  let rookDirs : List (Int × Int) := [(0, 1), (0, -1), (1, 0), (-1, 0)]
  let rook := rookDirs.any (fun d =>
    slideAtt bd color [4, 5] ((fileOf sq : Int) + d.1) ((rankOf sq : Int) + d.2) d.1 d.2 8)
  let bishopDirs : List (Int × Int) := [(1, 1), (1, -1), (-1, 1), (-1, -1)]
  let bishop := bishopDirs.any (fun d =>
    slideAtt bd color [3, 5] ((fileOf sq : Int) + d.1) ((rankOf sq : Int) + d.2) d.1 d.2 8)
  knight || pawn || king || rook || bishop

/-- Path-clearance walk between from and tsq (the while loops in the
bishop/rook/queen cases of IsLegalMoveInternal, src/chess.cpp). -/
def pathClearAux (bd : List Nat) (cf cr tf tr sf sr : Int) : Nat → Bool
  | 0 => true
  | fuel + 1 =>
    if cf = tf ∧ cr = tr then true
    else if getSq bd (mkSq cf.toNat cr.toNat) ≠ 0 then false
    else pathClearAux bd (cf + sf) (cr + sr) tf tr sf sr fuel

/-- The per-piece movement-pattern switch of IsLegalMoveInternal
(src/chess.cpp lines 251-443): geometric rules, path clearance,
promotion validation and the castling conditions.  The final
king-safety simulation is kept in IsLegalMoveInternal itself. -/
def pieceRule (b : CChessBoard) (fm tsq promo : Int) : Bool :=
  let bd := b.board
  let piece := getSq bd fm.toNat
  let white := IsWhitePiece piece
  let target := getSq bd tsq.toNat
  let ty := PieceTypeOf piece
  let ff : Int := fileOf fm.toNat
  let fr : Int := rankOf fm.toNat
  let tf : Int := fileOf tsq.toNat
  let tr : Int := rankOf tsq.toNat
  let df := tf - ff
  let dr := tr - fr
  if ty = 1 then
    let dir : Int := if white then 1 else -1
    let startRank : Int := if white then 1 else 6
    let promoRank : Int := if white then 7 else 0
    let shapeOk : Bool :=
      if df = 0 then
        if dr = dir ∧ target = 0 then true
        else if dr = 2 * dir ∧ fr = startRank ∧ target = 0 ∧
            getSq bd (mkSq ff.toNat (fr + dir).toNat) = 0 then true
        else false
      else if df.natAbs = 1 ∧ dr = dir then
        if target ≠ 0 then true
        else if tsq = b.nEnPassantSquare then true
        else false
      else false
    if !shapeOk then false
    else if tr = promoRank then
      decide (promo = 5 ∨ promo = 4 ∨ promo = 3 ∨ promo = 2)
    else decide (promo = 0)
  else if ty = 2 then
    decide ((df.natAbs = 1 ∧ dr.natAbs = 2) ∨ (df.natAbs = 2 ∧ dr.natAbs = 1))
  else if ty = 3 then
    if df.natAbs ≠ dr.natAbs ∨ df = 0 then false
    else
      let sf : Int := if df > 0 then 1 else -1
      let sr : Int := if dr > 0 then 1 else -1
      pathClearAux bd (ff + sf) (fr + sr) tf tr sf sr 8
  else if ty = 4 then
    if df ≠ 0 ∧ dr ≠ 0 then false
    else
      let sf : Int := if df = 0 then 0 else if df > 0 then 1 else -1
      let sr : Int := if dr = 0 then 0 else if dr > 0 then 1 else -1
      pathClearAux bd (ff + sf) (fr + sr) tf tr sf sr 8
  else if ty = 5 then
    if ¬ ((df.natAbs = dr.natAbs ∧ df ≠ 0) ∨ (df = 0 ∨ dr = 0)) then false
    else if df = 0 ∧ dr = 0 then false
    else
      let sf : Int := if df = 0 then 0 else if df > 0 then 1 else -1
      let sr : Int := if dr = 0 then 0 else if dr > 0 then 1 else -1
      pathClearAux bd (ff + sf) (fr + sr) tf tr sf sr 8
  else if ty = 6 then
    if df.natAbs = 2 ∧ dr = 0 then
      if white then
        if fm ≠ 4 ∨ fr ≠ 0 then false
        else if df = 2 then
          decide (b.fCastleWK = true ∧ getSq bd 5 = 0 ∧ getSq bd 6 = 0 ∧
            IsSquareAttacked b 4 false = false ∧ IsSquareAttacked b 5 false = false ∧
            IsSquareAttacked b 6 false = false)
        else
          decide (b.fCastleWQ = true ∧ getSq bd 3 = 0 ∧ getSq bd 2 = 0 ∧ getSq bd 1 = 0 ∧
            IsSquareAttacked b 4 false = false ∧ IsSquareAttacked b 3 false = false ∧
            IsSquareAttacked b 2 false = false)
      else
        if fm ≠ 60 ∨ fr ≠ 7 then false
        else if df = 2 then
          decide (b.fCastleBK = true ∧ getSq bd 61 = 0 ∧ getSq bd 62 = 0 ∧
            IsSquareAttacked b 60 true = false ∧ IsSquareAttacked b 61 true = false ∧
            IsSquareAttacked b 62 true = false)
        else
          decide (b.fCastleBQ = true ∧ getSq bd 59 = 0 ∧ getSq bd 58 = 0 ∧ getSq bd 57 = 0 ∧
            IsSquareAttacked b 60 true = false ∧ IsSquareAttacked b 59 true = false ∧
            IsSquareAttacked b 58 true = false)
    else decide (df.natAbs ≤ 1 ∧ dr.natAbs ≤ 1)
  else false

/-- DoMove (src/chess.cpp): execute a move with no legality check:
en-passant capture, castling rook relocation, promotion (defaulting tsq
queen), en-passant target, castling rights, clocks and side flip. -/
def DoMove (b : CChessBoard) (fm tsq promo : Int) : CChessBoard :=
  let bd := b.board
  let piece := getSq bd fm.toNat
  let ty := PieceTypeOf piece
  let white := IsWhitePiece piece
  let color : Nat := if white then 0 else 8
  let isEp : Prop := ty = 1 ∧ tsq = b.nEnPassantSquare
  let isCapture : Prop := getSq bd tsq.toNat ≠ 0 ∨ (ty = 1 ∧ tsq = b.nEnPassantSquare)
  let b1 := if isEp then bd.set (mkSq (fileOf tsq.toNat) (rankOf fm.toNat)) 0 else bd
  let b2 :=
    if ty = 6 ∧ ((fileOf tsq.toNat : Int) - (fileOf fm.toNat : Int)).natAbs = 2 then
      if fileOf tsq.toNat = 6 then
        let rookFrom := mkSq 7 (rankOf fm.toNat)
        let rookTo := mkSq 5 (rankOf fm.toNat)
        (b1.set rookTo (getSq b1 rookFrom)).set rookFrom 0
      else
        let rookFrom := mkSq 0 (rankOf fm.toNat)
        let rookTo := mkSq 3 (rankOf fm.toNat)
        (b1.set rookTo (getSq b1 rookFrom)).set rookFrom 0
    else b1
  let b3 := (b2.set tsq.toNat piece).set fm.toNat 0
  let b4 :=
    if ty = 1 ∧ (rankOf tsq.toNat = 0 ∨ rankOf tsq.toNat = 7) then
      b3.set tsq.toNat (color ||| (if 2 ≤ promo ∧ promo ≤ 5 then promo.toNat else 5))
    else b3
  { board := b4
    fWhiteToMove := !b.fWhiteToMove
    fCastleWK := b.fCastleWK ∧ ¬ (ty = 6 ∧ white) ∧ ¬ (ty = 4 ∧ fm = 7) ∧ tsq ≠ 7
    fCastleWQ := b.fCastleWQ ∧ ¬ (ty = 6 ∧ white) ∧ ¬ (ty = 4 ∧ fm = 0) ∧ tsq ≠ 0
    fCastleBK := b.fCastleBK ∧ ¬ (ty = 6 ∧ ¬ white) ∧ ¬ (ty = 4 ∧ fm = 63) ∧ tsq ≠ 63
    fCastleBQ := b.fCastleBQ ∧ ¬ (ty = 6 ∧ ¬ white) ∧ ¬ (ty = 4 ∧ fm = 56) ∧ tsq ≠ 56
    nEnPassantSquare :=
      if ty = 1 ∧ ((rankOf tsq.toNat : Int) - (rankOf fm.toNat : Int)).natAbs = 2 then
        (mkSq (fileOf fm.toNat) ((rankOf fm.toNat + rankOf tsq.toNat) / 2) : Int)
      else -1
    nHalfMoveClock := if isCapture ∨ ty = 1 then 0 else b.nHalfMoveClock + 1
    nFullMoveNumber := if white then b.nFullMoveNumber else b.nFullMoveNumber + 1 }

/-- IsLegalMoveInternal (src/chess.cpp): bounds, piece ownership,
target occupancy, movement pattern, then the king-safety simulation
(the move is made on a copy and the mover's king must not be
attacked). -/
def IsLegalMoveInternal (b : CChessBoard) (fm tsq promo : Int) : Bool :=
  if fm < 0 ∨ fm > 63 ∨ tsq < 0 ∨ tsq > 63 ∨ fm = tsq then false
  else if getSq b.board fm.toNat = 0 then false
  else if IsWhitePiece (getSq b.board fm.toNat) ≠ b.fWhiteToMove then false
  else if getSq b.board tsq.toNat ≠ 0 ∧
      IsWhitePiece (getSq b.board tsq.toNat) = IsWhitePiece (getSq b.board fm.toNat) then false
  else if pieceRule b fm tsq promo = false then false
  else
    match FindKing (DoMove b fm tsq promo).board (IsWhitePiece (getSq b.board fm.toNat)) with
    | none => false
    | some k =>
      !IsSquareAttacked (DoMove b fm tsq promo) k (!IsWhitePiece (getSq b.board fm.toNat))

/-- SquareFromString on two chars (src/chess.cpp SquareFromString). -/
def squareFromChars (c1 c2 : Char) : Int :=
  let file : Int := (c1.toNat : Int) - 97
  let rank : Int := (c2.toNat : Int) - 49
  if file < 0 ∨ file > 7 ∨ rank < 0 ∨ rank > 7 then -1
  else rank * 8 + file

/-- ParseMoveString (src/chess.cpp): four-char coordinate pair plus
optional promotion letter. -/
def ParseMoveString (s : String) : Option (Int × Int × Int) :=
  match s.toList with
  | [a, b, c, d] =>
    let fm := squareFromChars a b
    let tsq := squareFromChars c d
    if fm < 0 ∨ tsq < 0 then none else some (fm, tsq, 0)
  | [a, b, c, d, e] =>
    let fm := squareFromChars a b
    let tsq := squareFromChars c d
    if fm < 0 ∨ tsq < 0 then none
    else if e = 'q' ∨ e = 'Q' then some (fm, tsq, 5)
    else if e = 'r' ∨ e = 'R' then some (fm, tsq, 4)
    else if e = 'b' ∨ e = 'B' then some (fm, tsq, 3)
    else if e = 'n' ∨ e = 'N' then some (fm, tsq, 2)
    else none
  | _ => none

/-- MakeMove (src/chess.cpp): parse, default a queen promotion when a
pawn reaches the far rank with none supplied, validate, apply.  The C
version returns bool and mutates; modelled as Option. -/
def MakeMove (b : CChessBoard) (s : String) : Option CChessBoard :=
  match ParseMoveString s with
  | none => none
  | some (fm, tsq, promo) =>
    let promo :=
      if PieceTypeOf (getSq b.board fm.toNat) = 1 ∧ promo = 0 ∧
          (rankOf tsq.toNat : Int) = (if b.fWhiteToMove then 7 else 0) then 5
      else promo
    if IsLegalMoveInternal b fm tsq promo then some (DoMove b fm tsq promo) else none

/-- Positions reachable from the initial position by successful
MakeMove calls. -/
inductive ChessReachable : CChessBoard → Prop
  | init : ChessReachable chessInit
  | step {b : CChessBoard} {mv : String} {b' : CChessBoard} :
      ChessReachable b → MakeMove b mv = some b' → ChessReachable b'

end Chess

namespace Poker

/-- Rank of a card: card % 13, 0=2 .. 12=Ace (src/poker.h GetRank). -/
def cardRank (c : Nat) : Nat := c % 13

/-- Suit of a card: card / 13 (src/poker.h GetSuit). -/
def cardSuit (c : Nat) : Nat := c / 13

/-- nRankCount[r]: how many of the five cards have rank r
(the counting loops of EvaluateHand/ScoreHand, src/poker.cpp). -/
def rankCount (cards : List Nat) (r : Nat) : Nat :=
  (cards.filter (fun c => cardRank c = r)).length

/-- nSuitCount[s] (src/poker.cpp EvaluateHand). -/
def suitCount (cards : List Nat) (s : Nat) : Nat :=
  (cards.filter (fun c => cardSuit c = s)).length

/-- Flush check: some suit holds all five cards (src/poker.cpp). -/
def isFlush (cards : List Nat) : Bool :=
  (List.range 4).any (fun s => suitCount cards s = 5)

/-- Wheel check: A-2-3-4-5 present (src/poker.cpp EvaluateHand). -/
def isWheel (cards : List Nat) : Bool :=
  decide (rankCount cards 12 ≠ 0 ∧ rankCount cards 0 ≠ 0 ∧ rankCount cards 1 ≠ 0 ∧
    rankCount cards 2 ≠ 0 ∧ rankCount cards 3 ≠ 0)

/-- The straight scan of EvaluateHand: first i in 0..8 with five
consecutive ranks, the wheel overriding with high card 5; returns
(fStraight, nHighCard). -/
def straightInfo (cards : List Nat) : Bool × Int :=
  let loopRes := (List.range 9).find? (fun i =>
    decide (rankCount cards i ≠ 0 ∧ rankCount cards (i+1) ≠ 0 ∧ rankCount cards (i+2) ≠ 0 ∧
      rankCount cards (i+3) ≠ 0 ∧ rankCount cards (i+4) ≠ 0))
  if isWheel cards then (true, 3)
  else
    match loopRes with
    | some i => (true, (i : Int) + 4)
    | none => (false, -1)

/-- EvaluateHand (src/poker.cpp): classify five cards into the ten
PokerHandRank categories, 0 = high card .. 9 = royal flush. -/
def EvaluateHand (cards : List Nat) : Nat :=
  let fFlush := isFlush cards
  let si := straightInfo cards
  let nPairs := ((List.range 13).filter (fun i => rankCount cards i = 2)).length
  let nTrips := ((List.range 13).filter (fun i => rankCount cards i = 3)).length
  let nQuads := ((List.range 13).filter (fun i => rankCount cards i = 4)).length
  if fFlush ∧ si.1 ∧ si.2 = 12 then 9
  else if fFlush ∧ si.1 then 8
  else if nQuads = 1 then 7
  else if nTrips = 1 ∧ nPairs = 1 then 6
  else if fFlush then 5
  else if si.1 then 4
  else if nTrips = 1 then 3
  else if nPairs = 2 then 2
  else if nPairs = 1 then 1
  else 0

/-- Ranks 12 down to 0, the descending scan order of ScoreHand. -/
def descRanks : List Nat := (List.range 13).reverse

/-- The kicker list ScoreHand builds for each hand category
(src/poker.cpp lines 160-244). -/
def kickersOf (cards : List Nat) (rank : Nat) : List Nat :=
  if rank = 7 then
    descRanks.filter (fun i => rankCount cards i = 4) ++
    descRanks.filter (fun i => rankCount cards i = 1)
  else if rank = 6 then
    descRanks.filter (fun i => rankCount cards i = 3) ++
    descRanks.filter (fun i => rankCount cards i = 2)
  else if rank = 3 then
    descRanks.filter (fun i => rankCount cards i = 3) ++
    descRanks.filter (fun i => rankCount cards i = 1)
  else if rank = 2 then
    let pairs := descRanks.filter (fun i => rankCount cards i = 2)
    pairs.getD 0 0 :: pairs.getD 1 0 ::
      descRanks.filter (fun i => rankCount cards i = 1)
  else if rank = 1 then
    descRanks.filter (fun i => rankCount cards i = 2) ++
    descRanks.filter (fun i => rankCount cards i = 1)
  else if rank = 4 ∨ rank = 8 ∨ rank = 9 then
    if isWheel cards then [3]
    else
      match descRanks.find? (fun i => rankCount cards i ≠ 0) with
      | some i => [i]
      | none => []
  else
    (descRanks.map (fun i => List.replicate (rankCount cards i) i)).flatten

/-- The packing loop of ScoreHand: nScore |= kicker << (24 - i*4) for
the first seven kickers (src/poker.cpp lines 246-248). -/
def packKickersAux (acc : Nat) (i : Nat) : List Nat → Nat
  | [] => acc
  | k :: rest =>
    if i < 7 then packKickersAux (acc ||| (k <<< (24 - i * 4))) (i + 1) rest
    else acc

/-- ScoreHand (src/poker.cpp): hand category in bits 28-31, kickers in
descending 4-bit nibbles below. -/
def ScoreHand (cards : List Nat) : Nat :=
  packKickersAux ((EvaluateHand cards) <<< 28) 0 (kickersOf cards (EvaluateHand cards))

/-- A player's hand: five card slots plus nCount (src/poker.h CPokerHand). -/
structure CPokerHand where
  cards : List Nat
  nCount : Nat
deriving DecidableEq

/-- Poker phase constants (src/poker.h PokerPhase). -/
def POKER_ANTE : Nat := 0
def POKER_COMMIT : Nat := 1
def POKER_REVEAL : Nat := 2
def POKER_DEAL : Nat := 3
def POKER_BET1 : Nat := 4
def POKER_DRAW : Nat := 5
def POKER_BET2 : Nat := 6
def POKER_SHOWDOWN : Nat := 7
def POKER_DONE : Nat := 8

/-- Player actions (src/poker.h PokerAction). -/
inductive PokerAction where
  | fold | check | call | raise | discard | commitSeed | revealSeed | showHand
deriving DecidableEq

/-- Full poker game state (src/poker.h CPokerGame).  uint256 values
are modelled as Nat; the all-zero hash is the Nat 0. -/
structure CPokerGame where
  nPhase : Nat
  nPot : Int
  nCurrentBet : Int
  nDealerSeat : Nat
  hashSeedA : Nat
  hashSeedB : Nat
  seedA : Nat
  seedB : Nat
  fSeedARevealed : Bool
  fSeedBRevealed : Bool
  deck : List Nat
  handA : CPokerHand
  handB : CPokerHand
  vDiscardA : List Bool
  vDiscardB : List Bool
  nDrawCardIndex : Nat
  fPlayerAFolded : Bool
  fPlayerBFolded : Bool
  fPlayerAActed : Bool
  fPlayerBActed : Bool
deriving DecidableEq

/-- CPokerGame constructor (src/poker.cpp lines 307-332). -/
def initPokerGame : CPokerGame where
  nPhase := POKER_ANTE
  nPot := 0
  nCurrentBet := 0
  nDealerSeat := 0
  hashSeedA := 0
  hashSeedB := 0
  seedA := 0
  seedB := 0
  fSeedARevealed := false
  fSeedBRevealed := false
  deck := List.range 52
  handA := ⟨List.replicate 5 0, 0⟩
  handB := ⟨List.replicate 5 0, 0⟩
  vDiscardA := List.replicate 5 false
  vDiscardB := List.replicate 5 false
  nDrawCardIndex := 10
  fPlayerAFolded := false
  fPlayerBFolded := false
  fPlayerAActed := false
  fPlayerBActed := false

/-- Swap two deck positions (the swap in ShuffleDeck, src/poker.cpp). -/
def listSwap (l : List Nat) (i j : Nat) : List Nat :=
  let a := l.getD i 0
  let b := l.getD j 0
  (l.set i b).set j a

/-- One iteration of the Fisher-Yates loop of ShuffleDeck
(src/poker.cpp lines 366-385): re-hash the entropy every 8 positions,
extract the 32-bit little-endian chunk at byte offset (i%8)*4, reduce
mod i+1 and swap.  H1 is the external 256-bit hash re-applied to the
running entropy. -/
def shuffleStep (H1 : Nat → Nat) (st : List Nat × Nat) (i : Nat) : List Nat × Nat :=
  let ent := if i % 8 = 0 then H1 st.2 else st.2
  let nRandom := (ent >>> ((i % 8) * 4 * 8)) % (2 ^ 32)
  let j := nRandom % (i + 1)
  (listSwap st.1 i j, ent)

/-- ShuffleDeck (src/poker.cpp): deterministic Fisher-Yates over the
ordered deck, seeded with entropy Hash(seedA || seedB) = H2 seedA
seedB. -/
def ShuffleDeck (H1 : Nat → Nat) (H2 : Nat → Nat → Nat) (sA sB : Nat) : List Nat :=
  (((List.range 51).map (fun k => 51 - k)).foldl (shuffleStep H1)
    (List.range 52, H2 sA sB)).1

/-- DealCards (src/poker.cpp): deck[0..4] to player A, deck[5..9] to
player B, cursor to 10. -/
def DealCards (g : CPokerGame) : CPokerGame :=
  { g with
    handA := ⟨g.deck.take 5, 5⟩
    handB := ⟨(g.deck.drop 5).take 5, 5⟩
    nDrawCardIndex := 10 }

/-- The per-slot replacement loop of DrawCards (src/poker.cpp lines
426-438): threading (cards, cursor) through slots 0..4. -/
def drawLoop (deck : List Nat) (flags : List Bool) :
    List Nat → Nat → Nat → List Nat × Nat
  | cards, idx, 0 => (cards, idx)
  | cards, idx, n + 1 =>
    let i := 5 - (n + 1)
    if flags.getD i false ∧ idx < 52 then
      drawLoop deck flags (cards.set i (deck.getD idx 0)) (idx + 1) n
    else
      drawLoop deck flags cards idx n

/-- DrawCards (src/poker.cpp): mark the requested 0..4 discard slots
and replace them from the advancing deck cursor. -/
def DrawCards (g : CPokerGame) (fPlayerA : Bool) (vDiscard : List Int) : CPokerGame :=
  let flags := (List.range 5).map (fun i => vDiscard.any (fun idx => idx = (i : Int)))
  let hand := if fPlayerA then g.handA else g.handB
  let res := drawLoop g.deck flags hand.cards g.nDrawCardIndex 5
  let hand' := { hand with cards := res.1 }
  if fPlayerA then
    { g with handA := hand', vDiscardA := flags, nDrawCardIndex := res.2 }
  else
    { g with handB := hand', vDiscardB := flags, nDrawCardIndex := res.2 }

/-- DetermineWinner (src/poker.cpp): 0 = draw, 1 = A wins, 2 = B wins;
a folded seat loses, otherwise the strictly larger ScoreHand wins. -/
def DetermineWinner (g : CPokerGame) : Nat :=
  if g.fPlayerAFolded then 2
  else if g.fPlayerBFolded then 1
  else if ScoreHand g.handA.cards > ScoreHand g.handB.cards then 1
  else if ScoreHand g.handB.cards > ScoreHand g.handA.cards then 2
  else 0

/-- ProcessAction (src/poker.cpp lines 447-713): handle one player
action and advance phases.  H1/H2 are the external hash collaborators;
extraHex is the uint256 that SetHex parsed from strExtra for
commit/reveal, extraIdx the integers parsed from strExtra for discard
(string parsing of strExtra is done by external uint256/stream code). -/
def ProcessAction (H1 : Nat → Nat) (H2 : Nat → Nat → Nat) (g : CPokerGame)
    (fPlayerA : Bool) (act : PokerAction) (nAmount : Int)
    (extraHex : Nat) (extraIdx : List Int) : Bool × CPokerGame :=
  match act with
  | .commitSeed =>
    if g.nPhase ≠ POKER_COMMIT then (false, g)
    else if extraHex = 0 then (false, g)
    else
      let g1 := if fPlayerA then { g with hashSeedA := extraHex }
                else { g with hashSeedB := extraHex }
      if g1.hashSeedA ≠ 0 ∧ g1.hashSeedB ≠ 0 then
        (true, { g1 with nPhase := POKER_REVEAL })
      else (true, g1)
  | .revealSeed =>
    if g.nPhase ≠ POKER_REVEAL then (false, g)
    else
      let seed := extraHex
      let hashCheck := H1 seed
      if fPlayerA then
        if hashCheck ≠ g.hashSeedA then (false, g)
        else
          let g1 := { g with seedA := seed, fSeedARevealed := true }
          if g1.fSeedARevealed ∧ g1.fSeedBRevealed then
            let g2 := { g1 with deck := ShuffleDeck H1 H2 g1.seedA g1.seedB }
            let g3 := DealCards g2
            (true, { g3 with nPhase := POKER_BET1, fPlayerAActed := false,
                             fPlayerBActed := false })
          else (true, g1)
      else
        if hashCheck ≠ g.hashSeedB then (false, g)
        else
          let g1 := { g with seedB := seed, fSeedBRevealed := true }
          if g1.fSeedARevealed ∧ g1.fSeedBRevealed then
            let g2 := { g1 with deck := ShuffleDeck H1 H2 g1.seedA g1.seedB }
            let g3 := DealCards g2
            (true, { g3 with nPhase := POKER_BET1, fPlayerAActed := false,
                             fPlayerBActed := false })
          else (true, g1)
  | .fold =>
    if g.nPhase ≠ POKER_BET1 ∧ g.nPhase ≠ POKER_BET2 then (false, g)
    else
      let g1 := if fPlayerA then { g with fPlayerAFolded := true }
                else { g with fPlayerBFolded := true }
      (true, { g1 with nPhase := POKER_DONE })
  | .check =>
    if g.nPhase ≠ POKER_BET1 ∧ g.nPhase ≠ POKER_BET2 then (false, g)
    else if g.nCurrentBet > 0 then (false, g)
    else
      let g1 := if fPlayerA then { g with fPlayerAActed := true }
                else { g with fPlayerBActed := true }
      if g1.fPlayerAActed ∧ g1.fPlayerBActed then
        if g1.nPhase = POKER_BET1 then
          (true, { g1 with nPhase := POKER_DRAW, fPlayerAActed := false,
                           fPlayerBActed := false })
        else (true, { g1 with nPhase := POKER_SHOWDOWN })
      else (true, g1)
  | .call =>
    if g.nPhase ≠ POKER_BET1 ∧ g.nPhase ≠ POKER_BET2 then (false, g)
    else if g.nCurrentBet ≤ 0 then (false, g)
    else
      let g1 := { g with nPot := g.nPot + g.nCurrentBet }
      let g2 := if fPlayerA then { g1 with fPlayerAActed := true }
                else { g1 with fPlayerBActed := true }
      let g3 := { g2 with nCurrentBet := 0 }
      if g3.fPlayerAActed ∧ g3.fPlayerBActed then
        if g3.nPhase = POKER_BET1 then
          (true, { g3 with nPhase := POKER_DRAW, fPlayerAActed := false,
                           fPlayerBActed := false })
        else (true, { g3 with nPhase := POKER_SHOWDOWN })
      else (true, g3)
  | .raise =>
    if g.nPhase ≠ POKER_BET1 ∧ g.nPhase ≠ POKER_BET2 then (false, g)
    else if nAmount ≤ 0 then (false, g)
    else
      let g1 := { g with nPot := g.nPot + g.nCurrentBet + nAmount,
                         nCurrentBet := nAmount }
      if fPlayerA then
        (true, { g1 with fPlayerAActed := true, fPlayerBActed := false })
      else
        (true, { g1 with fPlayerBActed := true, fPlayerAActed := false })
  | .discard =>
    if g.nPhase ≠ POKER_DRAW then (false, g)
    else
      let vDiscard := extraIdx.filter (fun idx => 0 ≤ idx ∧ idx < 5)
      let g1 := DrawCards g fPlayerA vDiscard
      let g2 := if fPlayerA then { g1 with fPlayerAActed := true }
                else { g1 with fPlayerBActed := true }
      if g2.fPlayerAActed ∧ g2.fPlayerBActed then
        (true, { g2 with nPhase := POKER_BET2, nCurrentBet := 0,
                         fPlayerAActed := false, fPlayerBActed := false })
      else (true, g2)
  | .showHand =>
    if g.nPhase ≠ POKER_SHOWDOWN then (false, g)
    else
      let g1 := if fPlayerA then { g with fPlayerAActed := true }
                else { g with fPlayerBActed := true }
      if g1.fPlayerAActed ∧ g1.fPlayerBActed then
        (true, { g1 with nPhase := POKER_DONE })
      else (true, g1)

end Poker

namespace Channel

/-- Game type constants (src/gamechannel.h GameType). -/
def GAME_CHESS : Int := 1
def GAME_POKER : Int := 2

/-- Game state constants (src/gamechannel.h GameState). -/
def GSTATE_OPEN : Int := 0
def GSTATE_FUNDED : Int := 1
def GSTATE_PLAYING : Int := 2
def GSTATE_FINISHED : Int := 3
def GSTATE_SETTLED : Int := 4
def GSTATE_EXPIRED : Int := 5

/-- A challenge broadcast to find an opponent (src/gamechannel.h
CGameChallenge).  vchSig is carried but checked by the external
CheckSignature collaborator. -/
structure CGameChallenge where
  nVersion : Int
  nGameType : Int
  nBetAmount : Int
  nTime : Int
  vchPubKey : List Nat
  vchSig : List Nat
deriving DecidableEq

/-- Acceptance of a challenge (src/gamechannel.h CGameAccept). -/
structure CGameAccept where
  nVersion : Int
  hashChallenge : Nat
  vchPubKey : List Nat
  vchSig : List Nat
deriving DecidableEq

/-- A single move in a game (src/gamechannel.h CGameMove). -/
structure CGameMove where
  nVersion : Int
  hashSession : Nat
  nMoveNumber : Int
  strMove : String
  vchPayload : List Nat
  vchPubKey : List Nat
  vchSig : List Nat
deriving DecidableEq

/-- Script elements, enough for the output scripts gamechannel.cpp
builds.  Modelled from the spec: script.h is not part of this
snapshot; spec section 4.3 describes the multisig funding lock and the
pay-to-key outputs. -/
inductive ScriptOp where
  | push : List Nat → ScriptOp
  | op2 : ScriptOp
  | opCheckSig : ScriptOp
  | opCheckMultisig : ScriptOp
deriving DecidableEq

/-- A transaction input's previous-output reference (COutPoint).
Modelled from the spec: main.h is not part of this snapshot. -/
structure CTxIn where
  prevoutHash : Nat
  prevoutN : Nat
deriving DecidableEq

/-- A transaction output.  Modelled from the spec (main.h absent). -/
structure CTxOut where
  nValue : Int
  scriptPubKey : List ScriptOp
deriving DecidableEq

/-- A transaction, the fields gamechannel.cpp sets.  Modelled from the
spec (main.h absent). -/
structure CTransaction where
  vin : List CTxIn
  vout : List CTxOut
  nLockTime : Int
deriving DecidableEq

/-- Settlement message (src/gamechannel.h CGameSettle). -/
structure CGameSettle where
  nVersion : Int
  hashSession : Nat
  hashWinner : Nat
  txSettle : CTransaction
  vchSigA : List Nat
  vchSigB : List Nat
deriving DecidableEq

/-- In-memory game session (src/gamechannel.h CGameSession; the raw
peer pointer pnodeOpponent is outside the game logic and omitted). -/
structure CGameSession where
  nGameType : Int
  nState : Int
  nBetAmount : Int
  vchPubKeyA : List Nat
  vchPubKeyB : List Nat
  hashChallenge : Nat
  hashFundingTx : Nat
  nLockTime : Int
  vchGameState : List Nat
  vMoves : List CGameMove
deriving DecidableEq

/-- The two keyed tables guarded by cs_mapGames (src/gamechannel.cpp
globals), as maps from the uint256 key. -/
structure GameTables where
  mapGameChallenges : Nat → Option CGameChallenge
  mapGameSessions : Nat → Option CGameSession

/-- External collaborator interface.  Modelled from the spec (section
6): hash, sign/verify and the chain-height/transaction intake are
consumed from outside the game core; their sources (uint256.h, key.h,
main.h) are not part of this snapshot. -/
structure GameEnv where
  challengeSig : CGameChallenge → Bool
  acceptSig : CGameAccept → Bool
  moveSig : CGameMove → Bool
  challengeHash : CGameChallenge → Nat
  sessionHash : Nat → List Nat → List Nat → Nat
  nBestHeight : Int
  txCheck : CTransaction → Bool
  txAccept : CTransaction → Bool × Bool

/-- AcceptGameChallenge (src/gamechannel.cpp lines 28-54): de-dup by
hash, validate game type, bet amount, pubkey and signature, then
store. -/
def AcceptGameChallenge (env : GameEnv) (st : GameTables)
    (c : CGameChallenge) : Bool × GameTables :=
  if (st.mapGameChallenges (env.challengeHash c)).isSome then (false, st)
  else if c.nGameType ≠ GAME_CHESS ∧ c.nGameType ≠ GAME_POKER then (false, st)
  else if c.nBetAmount < 0 then (false, st)
  else if c.vchPubKey = [] then (false, st)
  else if env.challengeSig c = false then (false, st)
  else
    (true, { st with mapGameChallenges := fun h =>
      if h = env.challengeHash c then some c else st.mapGameChallenges h })

/-- The session AcceptGameAccept builds (src/gamechannel.cpp lines
77-84). -/
def mkSession (env : GameEnv) (challenge : CGameChallenge)
    (accept : CGameAccept) : CGameSession where
  nGameType := challenge.nGameType
  nState := GSTATE_OPEN
  nBetAmount := challenge.nBetAmount
  vchPubKeyA := challenge.vchPubKey
  vchPubKeyB := accept.vchPubKey
  hashChallenge := accept.hashChallenge
  hashFundingTx := 0
  nLockTime := env.nBestHeight + 144
  vchGameState := []
  vMoves := []

/-- AcceptGameAccept (src/gamechannel.cpp lines 58-97): find the
challenge, check the signature, refuse self-acceptance, create the
session keyed by Hash(challenge hash, both pubkeys) and consume the
challenge. -/
def AcceptGameAccept (env : GameEnv) (st : GameTables)
    (a : CGameAccept) : Bool × GameTables :=
  match st.mapGameChallenges a.hashChallenge with
  | none => (false, st)
  | some challenge =>
    if env.acceptSig a = false then (false, st)
    else if a.vchPubKey = challenge.vchPubKey then (false, st)
    else
      let session := mkSession env challenge a
      let hs := env.sessionHash a.hashChallenge challenge.vchPubKey a.vchPubKey
      (true,
        { mapGameChallenges := fun h =>
            if h = a.hashChallenge then none else st.mapGameChallenges h
          mapGameSessions := fun h =>
            if h = hs then some session else st.mapGameSessions h })

/-- ProcessGameMove (src/gamechannel.cpp lines 101-135): find the
session, check the signature, the sender key and the move number, then
append the move and advance OPEN/FUNDED to PLAYING.  No game-rules
engine is consulted. -/
def ProcessGameMove (env : GameEnv) (st : GameTables)
    (m : CGameMove) : Bool × GameTables :=
  match st.mapGameSessions m.hashSession with
  | none => (false, st)
  | some session =>
    if env.moveSig m = false then (false, st)
    else if m.vchPubKey ≠ session.vchPubKeyA ∧ m.vchPubKey ≠ session.vchPubKeyB then
      (false, st)
    else if m.nMoveNumber ≠ (session.vMoves.length : Int) then (false, st)
    else
      let session' :=
        { session with
          vMoves := session.vMoves ++ [m]
          nState :=
            if session.nState = GSTATE_FUNDED ∨ session.nState = GSTATE_OPEN then
              GSTATE_PLAYING
            else session.nState }
      (true, { st with mapGameSessions := fun h =>
        if h = m.hashSession then some session' else st.mapGameSessions h })

/-- ProcessGameSettle (src/gamechannel.cpp lines 139-171): find the
session, validate the settlement transaction, hand it to the external
transaction intake (missing inputs are queued, not fatal) and mark the
session SETTLED. -/
def ProcessGameSettle (env : GameEnv) (st : GameTables)
    (s : CGameSettle) : Bool × GameTables :=
  match st.mapGameSessions s.hashSession with
  | none => (false, st)
  | some session =>
    if env.txCheck s.txSettle = false then (false, st)
    else
      let acc := env.txAccept s.txSettle
      if acc.1 = false ∧ acc.2 = false then (false, st)
      else
        let session' := { session with nState := GSTATE_SETTLED }
        (true, { st with mapGameSessions := fun h =>
          if h = s.hashSession then some session' else st.mapGameSessions h })

/-- CreateRefundTransaction (src/gamechannel.cpp lines 189-206): spend
the funding output back to the requesting seat's key, locked to the
session's locktime. -/
def CreateRefundTransaction (session : CGameSession) (fPlayerA : Bool) : CTransaction where
  vin := [⟨session.hashFundingTx, 0⟩]
  vout := [⟨session.nBetAmount,
    [ScriptOp.push (if fPlayerA then session.vchPubKeyA else session.vchPubKeyB),
     ScriptOp.opCheckSig]⟩]
  nLockTime := session.nLockTime

end Channel

namespace Fixtures

open Chess Poker Channel

/-- A concrete collaborator environment for witnesses: signatures
always verify, hashes are simple total functions. -/
def envW : GameEnv where
  challengeSig := fun _ => true
  acceptSig := fun _ => true
  moveSig := fun _ => true
  challengeHash := fun _ => 7
  sessionHash := fun _ _ _ => 42
  nBestHeight := 1000
  txCheck := fun _ => true
  txAccept := fun _ => (true, false)

/-- Empty challenge/session tables. -/
def emptyTables : GameTables where
  mapGameChallenges := fun _ => none
  mapGameSessions := fun _ => none

/-- A well-formed chess challenge with positive stake from key [1]. -/
def chW : CGameChallenge := ⟨1, 1, 50000, 0, [1], []⟩

/-- A chess challenge with zero stake from key [1]. -/
def chZero : CGameChallenge := ⟨1, 1, 0, 0, [1], []⟩

/-- An accept of the stored challenge (hash 7) by key [2]. -/
def acW : CGameAccept := ⟨1, 7, [2], []⟩

/-- Tables holding chW under its hash 7. -/
def tablesCh : GameTables where
  mapGameChallenges := fun h => if h = 7 then some chW else none
  mapGameSessions := fun _ => none

/-- An OPEN chess session between keys [1] and [2]. -/
def sessionOpen : CGameSession := ⟨1, 0, 50000, [1], [2], 7, 0, 1144, [], []⟩

/-- Tables holding sessionOpen under session hash 5. -/
def tablesMove : GameTables where
  mapGameChallenges := fun _ => none
  mapGameSessions := fun h => if h = 5 then some sessionOpen else none

/-- The move string e2e5, an illegal opening pawn move. -/
def mvE2E5 : String := "e2e5"

/-- The move string e2e4, a legal opening pawn move. -/
def mvE2E4 : String := "e2e4"

/-- A correctly numbered, correctly signed move from key [1] whose
text is the chess-illegal e2e5. -/
def moveIllegal : CGameMove := ⟨1, 5, 0, mvE2E5, [], [1], []⟩

/-- A correctly numbered move from key [2] with text e2e4. -/
def moveC8 : CGameMove := ⟨1, 5, 0, mvE2E4, [], [2], []⟩

/-- A settlement message for session hash 5. -/
def settleW : CGameSettle := ⟨1, 5, 0, ⟨[], [], 0⟩, [], []⟩

/-- Witness hash collaborator: successor-style injection. -/
def H1w : Nat → Nat := fun n => n + 1

/-- Witness two-seed hash collaborator. -/
def H2w : Nat → Nat → Nat := fun a b => a * 1000003 + b

/-- A poker game in the commit phase with no commitments yet. -/
def gCommit : CPokerGame := { initPokerGame with nPhase := POKER_COMMIT }

/-- A poker game in the reveal phase: both commitments stored (under
H1w), seat B already revealed. -/
def gReveal : CPokerGame :=
  { initPokerGame with
    nPhase := POKER_REVEAL
    hashSeedA := 78
    hashSeedB := 89
    seedB := 88
    fSeedBRevealed := true }

end Fixtures

namespace Claims

open Chess Poker Channel Fixtures

/-- Claim C2: ProcessGameMove accepts a move exactly when the session
exists, the signature verifies, the sender key is one of the two
session keys, and the move number equals the current move-log length;
on any failure it returns false with the tables unchanged. -/
theorem processGameMove_checks (env : GameEnv) (st : GameTables) (m : CGameMove) :
    ((ProcessGameMove env st m).1 = true ↔
      ∃ s, st.mapGameSessions m.hashSession = some s ∧ env.moveSig m = true ∧
        (m.vchPubKey = s.vchPubKeyA ∨ m.vchPubKey = s.vchPubKeyB) ∧
        m.nMoveNumber = (s.vMoves.length : Int)) ∧
    ((ProcessGameMove env st m).1 = false → (ProcessGameMove env st m).2 = st) := by
  unfold ProcessGameMove
  cases hs : st.mapGameSessions m.hashSession with
  | none => simp
  | some s =>
    constructor
    · constructor
      · intro hok
        refine ⟨s, rfl, ?_⟩
        by_cases h1 : env.moveSig m = false
        · simp [h1] at hok
        · by_cases h2 : m.vchPubKey ≠ s.vchPubKeyA ∧ m.vchPubKey ≠ s.vchPubKeyB
          · simp [h1, h2] at hok
          · by_cases h3 : m.nMoveNumber ≠ (s.vMoves.length : Int)
            · simp [h1, h2, h3] at hok
            · refine ⟨by simpa using h1, ?_, by simpa using h3⟩
              by_cases ha : m.vchPubKey = s.vchPubKeyA
              · exact Or.inl ha
              · exact Or.inr (by tauto)
      · rintro ⟨s', hs', hsig, hsend, hnum⟩
        cases hs'
        have h2 : ¬ (m.vchPubKey ≠ s.vchPubKeyA ∧ m.vchPubKey ≠ s.vchPubKeyB) := by tauto
        simp [hsig, h2, hnum]
    · intro hfail
      by_cases h1 : env.moveSig m = false
      · simp [h1]
      · by_cases h2 : m.vchPubKey ≠ s.vchPubKeyA ∧ m.vchPubKey ≠ s.vchPubKeyB
        · simp [h1, h2]
        · by_cases h3 : m.nMoveNumber ≠ (s.vMoves.length : Int)
          · simp [h1, h2, h3]
          · simp [h1, h2, h3] at hfail

/-- Witness for C2: in the concrete fixture a wrongly numbered move is
rejected and the tables are unchanged. -/
theorem processGameMove_checks_witness :
    (ProcessGameMove envW tablesMove ⟨1, 5, 3, mvE2E4, [], [1], []⟩).1 = false ∧
    (ProcessGameMove envW tablesMove ⟨1, 5, 3, mvE2E4, [], [1], []⟩).2 = tablesMove := by
  have hfail : (ProcessGameMove envW tablesMove ⟨1, 5, 3, mvE2E4, [], [1], []⟩).1 = false := by
    decide
  exact ⟨hfail, (processGameMove_checks envW tablesMove ⟨1, 5, 3, mvE2E4, [], [1], []⟩).2 hfail⟩

/-- Counterexample for C9: a zero-stake challenge passes every check
of AcceptGameChallenge and is stored, because the code only rejects
strictly negative bet amounts. -/
theorem acceptGameChallenge_zero_stake_accepted :
    chZero.nBetAmount = 0 ∧
    (AcceptGameChallenge envW emptyTables chZero).1 = true ∧
    (AcceptGameChallenge envW emptyTables chZero).2.mapGameChallenges 7 = some chZero := by
  decide

/-- Claim C9 (amended): AcceptGameChallenge accepts exactly when the
challenge is new, its game type is chess or poker, its stake is
non-negative (zero is allowed), its pubkey is non-empty and its
signature verifies; failures store nothing and success stores the
challenge under its hash. -/
theorem acceptGameChallenge_validation (env : GameEnv) (st : GameTables)
    (c : CGameChallenge) :
    ((AcceptGameChallenge env st c).1 = true ↔
      (st.mapGameChallenges (env.challengeHash c) = none ∧
        (c.nGameType = GAME_CHESS ∨ c.nGameType = GAME_POKER) ∧
        0 ≤ c.nBetAmount ∧ c.vchPubKey ≠ [] ∧ env.challengeSig c = true)) ∧
    ((AcceptGameChallenge env st c).1 = false →
      (AcceptGameChallenge env st c).2 = st) ∧
    ((AcceptGameChallenge env st c).1 = true →
      (AcceptGameChallenge env st c).2.mapGameChallenges (env.challengeHash c) = some c) := by
  unfold AcceptGameChallenge
  split_ifs with h0 h1 h2 h3 h4
  · refine ⟨⟨fun hk => hk.elim, ?_⟩, fun _ => rfl,
      fun hk => hk.elim⟩
    rintro ⟨hnone, -⟩
    rw [hnone] at h0
    exact Bool.noConfusion h0
  · refine ⟨⟨fun hk => hk.elim, ?_⟩, fun _ => rfl,
      fun hk => hk.elim⟩
    rintro ⟨-, ht, -⟩
    rcases ht with h | h
    · exact h1.1 h
    · exact h1.2 h
  · refine ⟨⟨fun hk => hk.elim, ?_⟩, fun _ => rfl,
      fun hk => hk.elim⟩
    rintro ⟨-, -, hb, -⟩
    omega
  · refine ⟨⟨fun hk => hk.elim, ?_⟩, fun _ => rfl,
      fun hk => hk.elim⟩
    rintro ⟨-, -, -, hp, -⟩
    exact hp h3
  · refine ⟨⟨fun hk => hk.elim, ?_⟩, fun _ => rfl,
      fun hk => hk.elim⟩
    rintro ⟨-, -, -, -, hsig⟩
    rw [hsig] at h4
    exact Bool.noConfusion h4
  · have hnone : st.mapGameChallenges (env.challengeHash c) = none := by
      cases hcc : st.mapGameChallenges (env.challengeHash c) with
      | none => rfl
      | some v => rw [hcc] at h0; exact absurd rfl h0
    refine ⟨⟨fun _ => ⟨hnone, ?_, by omega, h3, ?_⟩, fun _ => rfl⟩,
      fun hk => hk.elim, fun _ => ?_⟩
    · by_cases hc : c.nGameType = GAME_CHESS
      · exact Or.inl hc
      · exact Or.inr (by tauto)
    · cases hs : env.challengeSig c with
      | false => exact absurd hs h4
      | true => rfl
    · simp

/-- Witness for C9 (amended): the fixture challenge with positive
stake is accepted and stored. -/
theorem acceptGameChallenge_validation_witness :
    (AcceptGameChallenge envW emptyTables chW).1 = true ∧
    (AcceptGameChallenge envW emptyTables chW).2.mapGameChallenges
      (envW.challengeHash chW) = some chW := by
  refine ⟨?_, ?_⟩
  · exact (acceptGameChallenge_validation envW emptyTables chW).1.mpr
      (by refine ⟨rfl, Or.inl rfl, by decide, by decide, rfl⟩)
  · exact (acceptGameChallenge_validation envW emptyTables chW).2.2
      ((acceptGameChallenge_validation envW emptyTables chW).1.mpr
        (by refine ⟨rfl, Or.inl rfl, by decide, by decide, rfl⟩))

/-- Helper: AcceptGameAccept on an unknown challenge hash returns
failure with the tables unchanged. -/
theorem acceptGameAccept_unknown (env : GameEnv) (st : GameTables) (a : CGameAccept)
    (h : st.mapGameChallenges a.hashChallenge = none) :
    AcceptGameAccept env st a = (false, st) := by
  unfold AcceptGameAccept
  rw [h]

/-- Claim C4: a challenge is single-use.  An Accept referencing an
unknown challenge hash is rejected with no change; the first valid
Accept creates exactly one session (at the session-hash key, all other
keys untouched) and erases the challenge in the same operation, so a
second Accept of the same challenge is rejected and changes nothing. -/
theorem acceptGameAccept_single_use (env : GameEnv) (st : GameTables) (a : CGameAccept) :
    (st.mapGameChallenges a.hashChallenge = none →
      AcceptGameAccept env st a = (false, st)) ∧
    (∀ ch, st.mapGameChallenges a.hashChallenge = some ch →
      env.acceptSig a = true → a.vchPubKey ≠ ch.vchPubKey →
      (AcceptGameAccept env st a).1 = true ∧
      (AcceptGameAccept env st a).2.mapGameChallenges a.hashChallenge = none ∧
      (AcceptGameAccept env st a).2.mapGameSessions
        (env.sessionHash a.hashChallenge ch.vchPubKey a.vchPubKey) =
        some (mkSession env ch a) ∧
      (∀ h, h ≠ env.sessionHash a.hashChallenge ch.vchPubKey a.vchPubKey →
        (AcceptGameAccept env st a).2.mapGameSessions h = st.mapGameSessions h) ∧
      AcceptGameAccept env (AcceptGameAccept env st a).2 a =
        (false, (AcceptGameAccept env st a).2)) := by
  constructor
  · intro hnone
    exact acceptGameAccept_unknown env st a hnone
  · intro ch hch hsig hpk
    have hstep : AcceptGameAccept env st a =
        (true,
          { mapGameChallenges := fun h =>
              if h = a.hashChallenge then none else st.mapGameChallenges h
            mapGameSessions := fun h =>
              if h = env.sessionHash a.hashChallenge ch.vchPubKey a.vchPubKey then
                some (mkSession env ch a)
              else st.mapGameSessions h }) := by
      unfold AcceptGameAccept
      rw [hch, hsig]
      simp [hpk]
    refine ⟨by rw [hstep], by rw [hstep]; simp, by rw [hstep]; simp, ?_, ?_⟩
    · intro h hne
      rw [hstep]
      simp [hne]
    · have hgone : (AcceptGameAccept env st a).2.mapGameChallenges a.hashChallenge = none := by
        rw [hstep]; simp
      exact acceptGameAccept_unknown env _ a hgone

/-- Witness for C4: the fixture accept consumes challenge 7, creates
the session at key 42, and a repeated accept is rejected. -/
theorem acceptGameAccept_single_use_witness :
    (AcceptGameAccept envW tablesCh acW).1 = true ∧
    (AcceptGameAccept envW tablesCh acW).2.mapGameChallenges 7 = none ∧
    (AcceptGameAccept envW tablesCh acW).2.mapGameSessions 42 = some (mkSession envW chW acW) ∧
    AcceptGameAccept envW (AcceptGameAccept envW tablesCh acW).2 acW =
      (false, (AcceptGameAccept envW tablesCh acW).2) := by
  have h := (acceptGameAccept_single_use envW tablesCh acW).2 chW (by decide) (by decide)
    (by decide)
  exact ⟨h.1, h.2.1, h.2.2.1, h.2.2.2.2⟩

/-- Claim C5: every session created by AcceptGameAccept gets locktime
nBestHeight + 144, and CreateRefundTransaction for that session
carries exactly that locktime and pays the session's single stake (the
challenge's bet amount) back to the requesting seat's own key. -/
theorem session_refund_locktime (env : GameEnv) (st : GameTables) (a : CGameAccept)
    (ch : CGameChallenge)
    (hch : st.mapGameChallenges a.hashChallenge = some ch)
    (hsig : env.acceptSig a = true)
    (hpk : a.vchPubKey ≠ ch.vchPubKey) :
    (AcceptGameAccept env st a).1 = true ∧
    ∃ s, (AcceptGameAccept env st a).2.mapGameSessions
        (env.sessionHash a.hashChallenge ch.vchPubKey a.vchPubKey) = some s ∧
      s.nLockTime = env.nBestHeight + 144 ∧
      s.nBetAmount = ch.nBetAmount ∧
      s.vchPubKeyA = ch.vchPubKey ∧ s.vchPubKeyB = a.vchPubKey ∧
      ∀ fA, (CreateRefundTransaction s fA).nLockTime = env.nBestHeight + 144 ∧
        (CreateRefundTransaction s fA).vout =
          [⟨s.nBetAmount,
            [ScriptOp.push (if fA then s.vchPubKeyA else s.vchPubKeyB),
             ScriptOp.opCheckSig]⟩] := by
  have hstep : AcceptGameAccept env st a =
      (true,
        { mapGameChallenges := fun h =>
            if h = a.hashChallenge then none else st.mapGameChallenges h
          mapGameSessions := fun h =>
            if h = env.sessionHash a.hashChallenge ch.vchPubKey a.vchPubKey then
              some (mkSession env ch a)
            else st.mapGameSessions h }) := by
    unfold AcceptGameAccept
    rw [hch, hsig]
    simp [hpk]
  refine ⟨by rw [hstep], mkSession env ch a, by rw [hstep]; simp, rfl, rfl, rfl, rfl,
    fun fA => ⟨rfl, rfl⟩⟩

/-- Witness for C5: the fixture session is created with locktime
1000 + 144 = 1144 and its refund transactions carry it. -/
theorem session_refund_locktime_witness :
    (AcceptGameAccept envW tablesCh acW).1 = true ∧
    ∃ s, (AcceptGameAccept envW tablesCh acW).2.mapGameSessions 42 = some s ∧
      s.nLockTime = envW.nBestHeight + 144 ∧
      s.nBetAmount = chW.nBetAmount ∧
      s.vchPubKeyA = chW.vchPubKey ∧ s.vchPubKeyB = acW.vchPubKey ∧
      ∀ fA, (CreateRefundTransaction s fA).nLockTime = envW.nBestHeight + 144 ∧
        (CreateRefundTransaction s fA).vout =
          [⟨s.nBetAmount,
            [ScriptOp.push (if fA then s.vchPubKeyA else s.vchPubKeyB),
             ScriptOp.opCheckSig]⟩] :=
  session_refund_locktime envW tablesCh acW chW (by decide) (by decide) (by decide)

/-- Counterexample for C1: ProcessGameMove accepts and appends a
correctly signed, correctly numbered move whose text e2e5 the embedded
chess engine itself rejects from the session's (empty-log) initial
position; no rules engine is consulted. -/
theorem processGameMove_accepts_illegal_game_move :
    MakeMove chessInit mvE2E5 = none ∧
    sessionOpen.nGameType = GAME_CHESS ∧
    sessionOpen.vMoves = [] ∧
    (ProcessGameMove envW tablesMove moveIllegal).1 = true ∧
    ((ProcessGameMove envW tablesMove moveIllegal).2.mapGameSessions 5).map
      (fun s => s.vMoves) = some [moveIllegal] := by
  refine ⟨by decide, by decide, by decide, by decide, by decide⟩

/-- Claim C1 (amended): ProcessGameMove validates only the signature,
the sender key and the move number; any move passing those three
checks is appended to the log unconditionally, with no application to
(or consultation of) the embedded chess or poker engine, so moves
illegal in the embedded game are accepted. -/
theorem processGameMove_appends_without_rules (env : GameEnv) (st : GameTables)
    (m : CGameMove) (s : CGameSession)
    (hs : st.mapGameSessions m.hashSession = some s)
    (hsig : env.moveSig m = true)
    (hsend : m.vchPubKey = s.vchPubKeyA ∨ m.vchPubKey = s.vchPubKeyB)
    (hnum : m.nMoveNumber = (s.vMoves.length : Int)) :
    (ProcessGameMove env st m).1 = true ∧
    ∃ s', (ProcessGameMove env st m).2.mapGameSessions m.hashSession = some s' ∧
      s'.vMoves = s.vMoves ++ [m] := by
  have h2 : ¬ (m.vchPubKey ≠ s.vchPubKeyA ∧ m.vchPubKey ≠ s.vchPubKeyB) := by tauto
  have h3 : ¬ (m.nMoveNumber ≠ (s.vMoves.length : Int)) := fun hc => hc hnum
  unfold ProcessGameMove
  simp only [hs]
  rw [if_neg (by rw [hsig]; exact fun hc => Bool.noConfusion hc), if_neg h2, if_neg h3]
  exact ⟨rfl,
    ⟨{ s with
        vMoves := s.vMoves ++ [m]
        nState := if s.nState = GSTATE_FUNDED ∨ s.nState = GSTATE_OPEN then
          GSTATE_PLAYING else s.nState },
      by simp, rfl⟩⟩

/-- Witness for C1 (amended): the chess-illegal fixture move is
appended. -/
theorem processGameMove_appends_without_rules_witness :
    (ProcessGameMove envW tablesMove moveIllegal).1 = true ∧
    ∃ s', (ProcessGameMove envW tablesMove moveIllegal).2.mapGameSessions 5 = some s' ∧
      s'.vMoves = sessionOpen.vMoves ++ [moveIllegal] :=
  processGameMove_appends_without_rules envW tablesMove moveIllegal sessionOpen
    (by decide) (by decide) (Or.inl (by decide)) (by decide)

/-- Counterexample for C8: a session still in state OPEN is moved
directly to PLAYING by a successful ProcessGameMove, skipping FUNDED. -/
theorem open_session_skips_funded :
    sessionOpen.nState = GSTATE_OPEN ∧
    (ProcessGameMove envW tablesMove moveC8).1 = true ∧
    ((ProcessGameMove envW tablesMove moveC8).2.mapGameSessions 5).map
      (fun s => s.nState) = some GSTATE_PLAYING := by
  refine ⟨by decide, by decide, by decide⟩

/-- Claim C8 (amended): a successful ProcessGameMove sets the session
state to PLAYING whenever it was OPEN or FUNDED (an OPEN session skips
FUNDED) and leaves other states; a successful ProcessGameSettle sets
SETTLED from whatever the prior state was (skipping FINISHED). -/
theorem session_state_transitions (env : GameEnv) (st : GameTables) :
    (∀ m s, st.mapGameSessions m.hashSession = some s →
      (ProcessGameMove env st m).1 = true →
      ∃ s', (ProcessGameMove env st m).2.mapGameSessions m.hashSession = some s' ∧
        s'.nState = (if s.nState = GSTATE_FUNDED ∨ s.nState = GSTATE_OPEN then
          GSTATE_PLAYING else s.nState)) ∧
    (∀ q s, st.mapGameSessions q.hashSession = some s →
      (ProcessGameSettle env st q).1 = true →
      ∃ s', (ProcessGameSettle env st q).2.mapGameSessions q.hashSession = some s' ∧
        s'.nState = GSTATE_SETTLED) := by
  constructor
  · intro m s hs hok
    unfold ProcessGameMove at hok ⊢
    simp only [hs] at hok ⊢
    by_cases h1 : env.moveSig m = false
    · rw [if_pos h1] at hok; cases hok
    · rw [if_neg h1] at hok ⊢
      by_cases h2 : m.vchPubKey ≠ s.vchPubKeyA ∧ m.vchPubKey ≠ s.vchPubKeyB
      · rw [if_pos h2] at hok; cases hok
      · rw [if_neg h2] at hok ⊢
        by_cases h3 : m.nMoveNumber ≠ (s.vMoves.length : Int)
        · rw [if_pos h3] at hok; cases hok
        · rw [if_neg h3]
          exact ⟨{ s with
              vMoves := s.vMoves ++ [m]
              nState := if s.nState = GSTATE_FUNDED ∨ s.nState = GSTATE_OPEN then
                GSTATE_PLAYING else s.nState },
            by simp, rfl⟩
  · intro q s hs hok
    unfold ProcessGameSettle at hok ⊢
    simp only [hs] at hok ⊢
    by_cases h1 : env.txCheck q.txSettle = false
    · rw [if_pos h1] at hok; cases hok
    · rw [if_neg h1] at hok ⊢
      by_cases h2 : (env.txAccept q.txSettle).1 = false ∧ (env.txAccept q.txSettle).2 = false
      · rw [if_pos h2] at hok; cases hok
      · rw [if_neg h2]
        exact ⟨{ s with nState := GSTATE_SETTLED }, by simp, rfl⟩

/-- Witness for C8 (amended): the fixture move and settle hit both
branches. -/
theorem session_state_transitions_witness :
    (∃ s', (ProcessGameMove envW tablesMove moveC8).2.mapGameSessions 5 = some s' ∧
      s'.nState = (if sessionOpen.nState = GSTATE_FUNDED ∨ sessionOpen.nState = GSTATE_OPEN
        then GSTATE_PLAYING else sessionOpen.nState)) ∧
    (∃ s', (ProcessGameSettle envW tablesMove settleW).2.mapGameSessions 5 = some s' ∧
      s'.nState = GSTATE_SETTLED) :=
  ⟨(session_state_transitions envW tablesMove).1 moveC8 sessionOpen (by decide) (by decide),
   (session_state_transitions envW tablesMove).2 settleW sessionOpen (by decide) (by decide)⟩

/-- Claim C10: the constructor starts with all-zero (no-commitment)
seed hashes in the ante phase; in the commit phase a commitment that
parses to the all-zero hash is rejected with no state change, a
non-zero commitment overwrites the acting seat's stored commitment
only, and the phase advances to reveal exactly when both stored
commitments are non-zero. -/
theorem commit_phase_behaviour (H1 : Nat → Nat) (H2 : Nat → Nat → Nat)
    (g : CPokerGame) (fA : Bool) (amt : Int) (hex : Nat) (idx : List Int) :
    (initPokerGame.hashSeedA = 0 ∧ initPokerGame.hashSeedB = 0 ∧
      initPokerGame.nPhase = POKER_ANTE) ∧
    (g.nPhase = POKER_COMMIT → hex = 0 →
      ProcessAction H1 H2 g fA .commitSeed amt hex idx = (false, g)) ∧
    (g.nPhase = POKER_COMMIT → hex ≠ 0 →
      (ProcessAction H1 H2 g fA .commitSeed amt hex idx).1 = true ∧
      ((ProcessAction H1 H2 g fA .commitSeed amt hex idx).2.hashSeedA =
          (if fA then hex else g.hashSeedA)) ∧
      ((ProcessAction H1 H2 g fA .commitSeed amt hex idx).2.hashSeedB =
          (if fA then g.hashSeedB else hex)) ∧
      ((ProcessAction H1 H2 g fA .commitSeed amt hex idx).2.nPhase = POKER_REVEAL ↔
        ((ProcessAction H1 H2 g fA .commitSeed amt hex idx).2.hashSeedA ≠ 0 ∧
         (ProcessAction H1 H2 g fA .commitSeed amt hex idx).2.hashSeedB ≠ 0)) ∧
      (¬ ((ProcessAction H1 H2 g fA .commitSeed amt hex idx).2.hashSeedA ≠ 0 ∧
          (ProcessAction H1 H2 g fA .commitSeed amt hex idx).2.hashSeedB ≠ 0) →
        (ProcessAction H1 H2 g fA .commitSeed amt hex idx).2.nPhase = POKER_COMMIT)) := by
  refine ⟨⟨rfl, rfl, rfl⟩, ?_, ?_⟩
  · intro hph hzero
    simp [ProcessAction, hph, hzero]
  · intro hph hnz
    cases fA with
    | true =>
      by_cases hb : g.hashSeedB ≠ 0
      · simp [ProcessAction, POKER_COMMIT, POKER_REVEAL, hph, hnz, hb]
      · simp [ProcessAction, POKER_COMMIT, POKER_REVEAL, hph, hnz, hb]
    | false =>
      by_cases hb : g.hashSeedA ≠ 0
      · simp [ProcessAction, POKER_COMMIT, POKER_REVEAL, hph, hnz, hb]
      · simp [ProcessAction, POKER_COMMIT, POKER_REVEAL, hph, hnz, hb]

/-- Witness for C10: in the fixture commit-phase game, seat A's
non-zero commitment is stored and the phase stays at commit. -/
theorem commit_phase_behaviour_witness :
    (ProcessAction H1w H2w gCommit true .commitSeed 0 0 [] = (false, gCommit)) ∧
    (ProcessAction H1w H2w gCommit true .commitSeed 0 78 []).1 = true ∧
    (ProcessAction H1w H2w gCommit true .commitSeed 0 78 []).2.hashSeedA = 78 ∧
    (ProcessAction H1w H2w gCommit true .commitSeed 0 78 []).2.nPhase = POKER_COMMIT := by
  have h := commit_phase_behaviour H1w H2w gCommit true 0 78 []
  have hz := (commit_phase_behaviour H1w H2w gCommit true 0 0 []).2.1 (by decide) rfl
  have hc := h.2.2 (by decide) (by decide)
  refine ⟨hz, hc.1, ?_, ?_⟩
  · rw [hc.2.1]
    simp
  · refine hc.2.2.2.2 ?_
    rw [hc.2.1, hc.2.2.1]
    simp [gCommit, initPokerGame]

/-- Helper: after any ProcessAction the phase is either unchanged, or
one of the literal phases a branch assigns; the only branch assigning
the reveal phase also guarantees both stored commitments non-zero. -/
theorem processAction_phase_cases (H1 : Nat → Nat) (H2 : Nat → Nat → Nat)
    (g : CPokerGame) (fA : Bool) (act : PokerAction) (amt : Int)
    (hex : Nat) (idx : List Int) :
    (ProcessAction H1 H2 g fA act amt hex idx).2.nPhase = g.nPhase ∨
    ((ProcessAction H1 H2 g fA act amt hex idx).2.nPhase = POKER_REVEAL ∧
      (ProcessAction H1 H2 g fA act amt hex idx).2.hashSeedA ≠ 0 ∧
      (ProcessAction H1 H2 g fA act amt hex idx).2.hashSeedB ≠ 0) ∨
    (ProcessAction H1 H2 g fA act amt hex idx).2.nPhase = POKER_BET1 ∨
    (ProcessAction H1 H2 g fA act amt hex idx).2.nPhase = POKER_DONE ∨
    (ProcessAction H1 H2 g fA act amt hex idx).2.nPhase = POKER_DRAW ∨
    (ProcessAction H1 H2 g fA act amt hex idx).2.nPhase = POKER_SHOWDOWN ∨
    (ProcessAction H1 H2 g fA act amt hex idx).2.nPhase = POKER_BET2 := by
  cases act <;> cases fA <;> simp only [ProcessAction] <;> split_ifs <;>
    simp_all [DealCards, DrawCards]

/-- Claim C3: a reveal-seed action is accepted only in the reveal
phase; the reveal phase is only ever entered with both stored
commitments non-zero; a revealed seed whose hash mismatches that
seat's commitment is rejected with no state change (no seed recorded,
phase unchanged); and the reveal that completes the pair shuffles the
deck from Hash(seedA || seedB), deals five cards to each seat, sets
the draw cursor to 10 and enters the first betting round. -/
theorem reveal_phase_protocol (H1 : Nat → Nat) (H2 : Nat → Nat → Nat)
    (g : CPokerGame) (fA : Bool) (act : PokerAction) (amt : Int)
    (hex : Nat) (idx : List Int) :
    (g.nPhase ≠ POKER_REVEAL →
      ProcessAction H1 H2 g fA .revealSeed amt hex idx = (false, g)) ∧
    (g.nPhase ≠ POKER_REVEAL →
      (ProcessAction H1 H2 g fA act amt hex idx).2.nPhase = POKER_REVEAL →
      (ProcessAction H1 H2 g fA act amt hex idx).2.hashSeedA ≠ 0 ∧
      (ProcessAction H1 H2 g fA act amt hex idx).2.hashSeedB ≠ 0) ∧
    (g.nPhase = POKER_REVEAL →
      H1 hex ≠ (if fA then g.hashSeedA else g.hashSeedB) →
      ProcessAction H1 H2 g fA .revealSeed amt hex idx = (false, g)) ∧
    (g.nPhase = POKER_REVEAL →
      H1 hex = (if fA then g.hashSeedA else g.hashSeedB) →
      (if fA then g.fSeedBRevealed else g.fSeedARevealed) = true →
      (ProcessAction H1 H2 g fA .revealSeed amt hex idx).1 = true ∧
      (ProcessAction H1 H2 g fA .revealSeed amt hex idx).2.deck =
        ShuffleDeck H1 H2 (if fA then hex else g.seedA) (if fA then g.seedB else hex) ∧
      (ProcessAction H1 H2 g fA .revealSeed amt hex idx).2.handA.cards =
        (ShuffleDeck H1 H2 (if fA then hex else g.seedA)
          (if fA then g.seedB else hex)).take 5 ∧
      (ProcessAction H1 H2 g fA .revealSeed amt hex idx).2.handA.nCount = 5 ∧
      (ProcessAction H1 H2 g fA .revealSeed amt hex idx).2.handB.cards =
        ((ShuffleDeck H1 H2 (if fA then hex else g.seedA)
          (if fA then g.seedB else hex)).drop 5).take 5 ∧
      (ProcessAction H1 H2 g fA .revealSeed amt hex idx).2.handB.nCount = 5 ∧
      (ProcessAction H1 H2 g fA .revealSeed amt hex idx).2.nDrawCardIndex = 10 ∧
      (ProcessAction H1 H2 g fA .revealSeed amt hex idx).2.nPhase = POKER_BET1) := by
  refine ⟨?_, ?_, ?_, ?_⟩
  · intro hph
    simp [ProcessAction, hph]
  · intro hph hpost
    rcases processAction_phase_cases H1 H2 g fA act amt hex idx with
      h | h | h | h | h | h | h
    · rw [hpost] at h
      exact absurd h.symm hph
    · exact ⟨h.2.1, h.2.2⟩
    · rw [hpost] at h
      exact absurd h (by decide)
    · rw [hpost] at h
      exact absurd h (by decide)
    · rw [hpost] at h
      exact absurd h (by decide)
    · rw [hpost] at h
      exact absurd h (by decide)
    · rw [hpost] at h
      exact absurd h (by decide)
  · intro hph hne
    cases fA with
    | true =>
      simp at hne
      simp [ProcessAction, hph, hne]
    | false =>
      simp at hne
      simp [ProcessAction, hph, hne]
  · intro hph hmeq hrev
    cases fA with
    | true =>
      simp at hmeq hrev
      simp [ProcessAction, DealCards, hph, hmeq, hrev]
    | false =>
      simp at hmeq hrev
      simp [ProcessAction, DealCards, hph, hmeq, hrev]

/-- Witness for C3: in the fixture reveal-phase game, a wrong seed is
rejected and seat A's correct final reveal shuffles and deals. -/
theorem reveal_phase_protocol_witness :
    (ProcessAction H1w H2w gReveal true .revealSeed 0 99 [] = (false, gReveal)) ∧
    (ProcessAction H1w H2w gReveal true .revealSeed 0 77 []).1 = true ∧
    (ProcessAction H1w H2w gReveal true .revealSeed 0 77 []).2.deck =
      ShuffleDeck H1w H2w 77 88 ∧
    (ProcessAction H1w H2w gReveal true .revealSeed 0 77 []).2.handA.cards =
      (ShuffleDeck H1w H2w 77 88).take 5 ∧
    (ProcessAction H1w H2w gReveal true .revealSeed 0 77 []).2.nDrawCardIndex = 10 ∧
    (ProcessAction H1w H2w gReveal true .revealSeed 0 77 []).2.nPhase = POKER_BET1 := by
  have hbad := (reveal_phase_protocol H1w H2w gReveal true .revealSeed 0 99 []).2.2.1
    (by decide) (by decide)
  have hgood := (reveal_phase_protocol H1w H2w gReveal true .revealSeed 0 77 []).2.2.2
    (by decide) (by decide) (by decide)
  exact ⟨hbad, hgood.1, hgood.2.1, hgood.2.2.1, hgood.2.2.2.2.2.2.1, hgood.2.2.2.2.2.2.2⟩

/-- Helper: every rank ≤ 12 bound for descRanks members. -/
theorem mem_descRanks_le (x : Nat) (hx : x ∈ descRanks) : x ≤ 12 := by
  rw [descRanks, List.mem_reverse, List.mem_range] at hx
  omega

/-- Helper: getD over a list of ranks ≤ 12 with default 0 stays ≤ 12. -/
theorem getD_le_twelve (l : List Nat) (n : Nat) (hl : ∀ x ∈ l, x ≤ 12) :
    l.getD n 0 ≤ 12 := by
  rw [List.getD_eq_getElem?_getD]
  cases hx : l[n]? with
  | none => simp
  | some v => simpa using hl v (List.getElem?_mem hx)

/-- Helper: every kicker ScoreHand packs is a rank index ≤ 12. -/
theorem kickersOf_le_twelve (cards : List Nat) (r : Nat) :
    ∀ k ∈ kickersOf cards r, k ≤ 12 := by
  intro k hk
  have hfil : ∀ (p : Nat → Bool), k ∈ descRanks.filter p → k ≤ 12 := fun p h =>
    mem_descRanks_le k (List.mem_filter.mp h).1
  unfold kickersOf at hk
  split_ifs at hk with h7 h6 h3 h2 h1 hst
  · rcases List.mem_append.mp hk with h | h
    · exact hfil _ h
    · exact hfil _ h
  · rcases List.mem_append.mp hk with h | h
    · exact hfil _ h
    · exact hfil _ h
  · rcases List.mem_append.mp hk with h | h
    · exact hfil _ h
    · exact hfil _ h
  · rcases List.mem_cons.mp hk with h | hk
    · rw [h]
      exact getD_le_twelve _ _ (fun x hx => mem_descRanks_le x (List.mem_filter.mp hx).1)
    · rcases List.mem_cons.mp hk with h | hk
      · rw [h]
        exact getD_le_twelve _ _ (fun x hx => mem_descRanks_le x (List.mem_filter.mp hx).1)
      · exact hfil _ hk
  · rcases List.mem_append.mp hk with h | h
    · exact hfil _ h
    · exact hfil _ h
  · simp at hk
    omega
  · cases hf : descRanks.find? (fun i => decide (rankCount cards i ≠ 0)) with
    | none => rw [hf] at hk; cases hk
    | some i =>
      rw [hf] at hk
      simp at hk
      rw [hk]
      exact mem_descRanks_le i (List.mem_of_find?_eq_some hf)
  · rcases List.mem_flatten.mp hk with ⟨l, hl, hkl⟩
    rcases List.mem_map.mp hl with ⟨i, hi, rfl⟩
    rw [List.eq_of_mem_replicate hkl]
    exact mem_descRanks_le i hi

/-- Helper: the kicker-packing loop only ORs values below 2^28 onto
its accumulator. -/
theorem packKickersAux_or (ks : List Nat) (hks : ∀ k ∈ ks, k ≤ 12) :
    ∀ i acc, ∃ low, low < 2 ^ 28 ∧ packKickersAux acc i ks = acc ||| low := by
  induction ks with
  | nil =>
    intro i acc
    exact ⟨0, by norm_num, by simp [packKickersAux]⟩
  | cons k rest ih =>
    intro i acc
    have hk : k ≤ 12 := hks k (List.mem_cons_self k rest)
    have hrest : ∀ x ∈ rest, x ≤ 12 := fun x hx => hks x (List.mem_cons_of_mem _ hx)
    by_cases hi : i < 7
    · obtain ⟨low, hlow, heq⟩ := ih hrest (i + 1) (acc ||| (k <<< (24 - i * 4)))
      refine ⟨(k <<< (24 - i * 4)) ||| low, ?_, ?_⟩
      · refine Nat.or_lt_two_pow ?_ hlow
        calc k <<< (24 - i * 4) = k * 2 ^ (24 - i * 4) := Nat.shiftLeft_eq k _
          _ ≤ 12 * 2 ^ 24 :=
            Nat.mul_le_mul hk (Nat.pow_le_pow_right (by norm_num) (by omega))
          _ < 2 ^ 28 := by norm_num
      · simp only [packKickersAux, if_pos hi]
        rw [heq, Nat.or_assoc]
    · exact ⟨0, by norm_num, by simp only [packKickersAux, if_neg hi]; simp⟩

/-- Helper: shifting right distributes over bitwise or. -/
theorem lor_shiftRight_distrib (a b n : Nat) :
    (a ||| b) >>> n = (a >>> n) ||| (b >>> n) :=
  Nat.eq_of_testBit_eq fun i => by
    simp [Nat.testBit_shiftRight, Nat.testBit_lor]

/-- Helper: the top four bits of a ScoreHand value are exactly the
EvaluateHand category. -/
theorem scoreHand_shiftRight (cards : List Nat) :
    ScoreHand cards >>> 28 = EvaluateHand cards := by
  obtain ⟨low, hlow, heq⟩ := packKickersAux_or (kickersOf cards (EvaluateHand cards))
    (kickersOf_le_twelve cards (EvaluateHand cards)) 0 ((EvaluateHand cards) <<< 28)
  rw [show ScoreHand cards =
    packKickersAux ((EvaluateHand cards) <<< 28) 0 (kickersOf cards (EvaluateHand cards))
    from rfl]
  rw [heq, lor_shiftRight_distrib, Nat.shiftLeft_shiftRight,
    Nat.shiftRight_eq_div_pow, Nat.div_eq_of_lt hlow, Nat.or_zero]

/-- Helper: a strictly higher hand category always gives a strictly
larger ScoreHand value, whatever the kickers. -/
theorem scoreHand_dominance (h1 h2 : List Nat)
    (hgt : EvaluateHand h1 > EvaluateHand h2) : ScoreHand h1 > ScoreHand h2 := by
  have d1 := scoreHand_shiftRight h1
  have d2 := scoreHand_shiftRight h2
  rw [Nat.shiftRight_eq_div_pow] at d1 d2
  have hge : EvaluateHand h1 * 2 ^ 28 ≤ ScoreHand h1 := by
    rw [← d1]
    exact Nat.div_mul_le_self _ _
  have hlt : ScoreHand h2 < (EvaluateHand h2 + 1) * 2 ^ 28 := by
    refine (Nat.div_lt_iff_lt_mul (by positivity)).mp ?_
    omega
  have hmul : (EvaluateHand h2 + 1) * 2 ^ 28 ≤ EvaluateHand h1 * 2 ^ 28 :=
    Nat.mul_le_mul_right _ (by omega)
  omega

/-- Claim C6: ScoreHand totally orders five-card hands with category
dominating kickers (a strictly higher EvaluateHand category gives a
strictly larger score regardless of kickers; concretely four 2s with a
9 kicker outscores every full house), and DetermineWinner, absent
folds, awards the pot to the seat with the strictly larger score and
declares a draw exactly on equal scores. -/
theorem scoreHand_total_order (a0 a1 a2 a3 a4 b0 b1 b2 b3 b4 : Nat) (g : CPokerGame) :
    (EvaluateHand [a0, a1, a2, a3, a4] > EvaluateHand [b0, b1, b2, b3, b4] →
      ScoreHand [a0, a1, a2, a3, a4] > ScoreHand [b0, b1, b2, b3, b4]) ∧
    (EvaluateHand [b0, b1, b2, b3, b4] = 6 →
      ScoreHand [0, 13, 26, 39, 7] > ScoreHand [b0, b1, b2, b3, b4]) ∧
    (g.fPlayerAFolded = false → g.fPlayerBFolded = false →
      ((DetermineWinner g = 1 ↔ ScoreHand g.handA.cards > ScoreHand g.handB.cards) ∧
       (DetermineWinner g = 2 ↔ ScoreHand g.handB.cards > ScoreHand g.handA.cards) ∧
       (DetermineWinner g = 0 ↔ ScoreHand g.handA.cards = ScoreHand g.handB.cards))) := by
  refine ⟨scoreHand_dominance _ _, ?_, ?_⟩
  · intro hfh
    apply scoreHand_dominance
    rw [hfh]
    decide
  · intro hA hB
    unfold DetermineWinner
    simp only [hA, hB, Bool.false_eq_true, if_false]
    split_ifs with h1 h2 <;>
      refine ⟨⟨?_, ?_⟩, ⟨?_, ?_⟩, ⟨?_, ?_⟩⟩ <;> intro hx <;>
      first
      | exact hx.elim
      | omega

/-- Witness for C6: four 2s with a 9 kicker beats the concrete full
house 2-2-7-7-7, and the initial game's equal hands draw. -/
theorem scoreHand_total_order_witness :
    ScoreHand [0, 13, 26, 39, 7] > ScoreHand [0, 13, 5, 18, 31] ∧
    (DetermineWinner initPokerGame = 0 ↔
      ScoreHand initPokerGame.handA.cards = ScoreHand initPokerGame.handB.cards) := by
  have h := scoreHand_total_order 0 13 26 39 7 0 13 5 18 31 initPokerGame
  exact ⟨h.2.1 (by decide), (h.2.2 rfl rfl).2.2⟩

/-- Claim C7: on every position reachable from the initial position, a
successful MakeMove flips the side to move, increments the full-move
counter exactly when the mover was black, and leaves the moving side's
king present and unattacked in the resulting position (the legality
check rejects any move whose simulation leaves that king attacked). -/
theorem makeMove_invariants (b : CChessBoard) (mv : String) (b' : CChessBoard)
    (hreach : ChessReachable b) (h : MakeMove b mv = some b') :
    b'.fWhiteToMove = !b.fWhiteToMove ∧
    b'.nFullMoveNumber = b.nFullMoveNumber + (if b.fWhiteToMove then 0 else 1) ∧
    ∃ k, FindKing b'.board b.fWhiteToMove = some k ∧
      IsSquareAttacked b' k (!b.fWhiteToMove) = false := by
  unfold MakeMove at h
  cases hp : ParseMoveString mv with
  | none => rw [hp] at h; cases h
  | some t =>
    obtain ⟨fm, tsq, p0⟩ := t
    rw [hp] at h
    simp only [] at h
    by_cases hleg : IsLegalMoveInternal b fm tsq
      (if PieceTypeOf (getSq b.board fm.toNat) = 1 ∧ p0 = 0 ∧
          (rankOf tsq.toNat : Int) = (if b.fWhiteToMove then 7 else 0) then 5 else p0) = true
    · rw [if_pos hleg] at h
      have hb' : b' = DoMove b fm tsq
          (if PieceTypeOf (getSq b.board fm.toNat) = 1 ∧ p0 = 0 ∧
            (rankOf tsq.toNat : Int) = (if b.fWhiteToMove then 7 else 0) then 5 else p0) :=
        (Option.some.inj h).symm
      subst hb'
      unfold IsLegalMoveInternal at hleg
      by_cases hb1 : fm < 0 ∨ fm > 63 ∨ tsq < 0 ∨ tsq > 63 ∨ fm = tsq
      · rw [if_pos hb1] at hleg
        exact absurd hleg (by decide)
      · rw [if_neg hb1] at hleg
        by_cases hb2 : getSq b.board fm.toNat = 0
        · rw [if_pos hb2] at hleg
          exact absurd hleg (by decide)
        · rw [if_neg hb2] at hleg
          by_cases hb3 : IsWhitePiece (getSq b.board fm.toNat) ≠ b.fWhiteToMove
          · rw [if_pos hb3] at hleg
            exact absurd hleg (by decide)
          · rw [if_neg hb3] at hleg
            have hw : IsWhitePiece (getSq b.board fm.toNat) = b.fWhiteToMove :=
              not_not.mp hb3
            by_cases hb4 : getSq b.board tsq.toNat ≠ 0 ∧
                IsWhitePiece (getSq b.board tsq.toNat) = IsWhitePiece (getSq b.board fm.toNat)
            · rw [if_pos hb4] at hleg
              exact absurd hleg (by decide)
            · rw [if_neg hb4] at hleg
              by_cases hb5 : pieceRule b fm tsq
                  (if PieceTypeOf (getSq b.board fm.toNat) = 1 ∧ p0 = 0 ∧
                    (rankOf tsq.toNat : Int) = (if b.fWhiteToMove then 7 else 0)
                  then 5 else p0) = false
              · rw [if_pos hb5] at hleg
                exact absurd hleg (by decide)
              · rw [if_neg hb5] at hleg
                cases hfk : FindKing (DoMove b fm tsq
                    (if PieceTypeOf (getSq b.board fm.toNat) = 1 ∧ p0 = 0 ∧
                      (rankOf tsq.toNat : Int) = (if b.fWhiteToMove then 7 else 0)
                    then 5 else p0)).board
                    (IsWhitePiece (getSq b.board fm.toNat)) with
                | none =>
                  rw [hfk] at hleg
                  simp at hleg
                | some k =>
                  rw [hfk] at hleg
                  rw [hw] at hfk hleg
                  refine ⟨rfl, ?_, k, hfk, ?_⟩
                  · rw [show (DoMove b fm tsq
                        (if PieceTypeOf (getSq b.board fm.toNat) = 1 ∧ p0 = 0 ∧
                          (rankOf tsq.toNat : Int) = (if b.fWhiteToMove then 7 else 0)
                        then 5 else p0)).nFullMoveNumber =
                        (if IsWhitePiece (getSq b.board fm.toNat) = true then
                          b.nFullMoveNumber else b.nFullMoveNumber + 1) from rfl, hw]
                    cases b.fWhiteToMove <;> simp
                  · simpa using hleg
    · rw [if_neg hleg] at h
      cases h

/-- Witness for C7: from the (reachable) initial position the move
e2e4 succeeds, flips the side to move, keeps the full-move counter,
and leaves the white king unattacked. -/
theorem makeMove_invariants_witness :
    ∃ b', MakeMove chessInit mvE2E4 = some b' ∧
      (b'.fWhiteToMove = !chessInit.fWhiteToMove ∧
       b'.nFullMoveNumber = chessInit.nFullMoveNumber +
         (if chessInit.fWhiteToMove then 0 else 1) ∧
       ∃ k, FindKing b'.board chessInit.fWhiteToMove = some k ∧
         IsSquareAttacked b' k (!chessInit.fWhiteToMove) = false) := by
  have hsome : (MakeMove chessInit mvE2E4).isSome = true := by decide
  obtain ⟨b', hb'⟩ := Option.isSome_iff_exists.mp hsome
  exact ⟨b', hb', makeMove_invariants chessInit mvE2E4 b' ChessReachable.init hb'⟩

end Claims

end Bcash
